import Mathlib

/-!
Shallow embedding of the `claude-provider` configuration switcher
(single Go file, tool version 2.1.0).

The program toggles a settings file between an Anthropic profile and a
Z.AI profile, preserving the Anthropic credential in a sidecar backup
file.  We embed:

* environments (Go `map[string]string`) as association lists without
  duplicate keys (every map the program builds is duplicate-free);
* the persisted JSON documents as a small JSON value type together with
  decoders that mirror Go `encoding/json` unmarshalling into the
  `Config`, `BackupMetadata` and `BackupConfig` structs: unknown object
  fields are ignored, a missing field leaves the zero value, a JSON
  `null` yields the zero value, a type mismatch is a decode error, and
  for duplicate keys the last well-typed occurrence wins;
* the file system visible to the tool as one settings slot and one
  backup slot, each either absent, unreadable (I/O error on read),
  unparseable bytes, or a parsed JSON document;
* the operations `loadConfig`, `hasValidAnthropicBackup`,
  `createBackupWithMetadata`, `switchToAnthropic`, `switchToZAI` and
  `showStatus` as state-passing functions over that file system, with a
  `World` record supplying the externally-obtained credential, the
  clock, and write-failure injection for the two atomic-write paths
  (an atomic write either fully succeeds or leaves the target file
  untouched, exactly the temp-file-plus-rename discipline of the code).

Strings are treated as character sequences; Go indexes and measures
byte lengths, which agrees on ASCII data (all fixed keys, markers and
prefixes in the program are ASCII).
-/

namespace ClaudeSwitch

/-- Environment mapping (Go `map[string]string`) as an association list.
All environments built by the program are duplicate-key free. -/
abbrev Env := List (String × String)

/-- Go map read: `some v` when the key is present, `none` when absent. -/
def envLookup : Env → String → Option String
  | [], _ => none
  | (k, v) :: rest, key => if k = key then some v else envLookup rest key

/-- Go map read `m[k]` with the zero value `""` for an absent key. -/
def envGetD (e : Env) (k : String) : String := (envLookup e k).getD ""

/-- The keys of an environment. -/
def envKeys (e : Env) : List String := e.map Prod.fst

/-- Remove every binding of a key. -/
def envErase : Env → String → Env
  | [], _ => []
  | p :: rest, key => if p.1 = key then envErase rest key else p :: envErase rest key

/-- Go map assignment `m[k] = v`: replaces any previous binding. -/
def envInsert (e : Env) (k v : String) : Env := envErase e k ++ [(k, v)]

/-- Rebuild an environment by Go-map insertion of each binding in order
(the result of unmarshalling a JSON object field list). -/
def refold (acc : Env) (l : Env) : Env := l.foldl (fun a p => envInsert a p.1 p.2) acc

/-- JSON values, as far as the tool's documents need them. -/
inductive JValue where
  | null
  | bool (b : Bool)
  | num (n : Int)
  | str (s : String)
  | arr (elems : List JValue)
  | obj (fields : List (String × JValue))

/-- The `env` mapping of a JSON object, with every value a string. -/
def strFields (e : Env) : List (String × JValue) := e.map (fun p => (p.1, JValue.str p.2))

/-- Go unmarshalling of a JSON object into `map[string]string`: every
value must be a string; later duplicate keys overwrite earlier ones. -/
def decodeStrFields : List (String × JValue) → Env → Option Env
  | [], acc => some acc
  | (k, JValue.str v) :: rest, acc => decodeStrFields rest (envInsert acc k v)
  | _ :: _, _ => none

/-- Go unmarshalling of a struct field of type `map[string]string`:
`null` leaves the zero (empty) map, an object is decoded element-wise,
anything else is a type error. -/
def decodeEnvField : JValue → Option Env
  | JValue.null => some []
  | JValue.obj fields => decodeStrFields fields []
  | _ => none

/-- Go unmarshalling of a struct field of type `string`: `null` leaves
the zero value, anything but a string is a type error. -/
def decodeStr : JValue → Option String
  | JValue.null => some ""
  | JValue.str s => some s
  | _ => none

/-- Scan an unmarshalled object's field list for one struct field.
`none` is a decode error; `some none` means the field never occurred
(zero value applies); otherwise the last well-typed occurrence wins. -/
def decodeField {α : Type} (key : String) (dec : JValue → Option α) :
    List (String × JValue) → Option α → Option (Option α)
  | [], acc => some acc
  | (k, v) :: rest, acc =>
    if k = key then
      match dec v with
      | some x => decodeField key dec rest (some x)
      | none => none
    else decodeField key dec rest acc

/-- Go struct `Config`: the settings document. -/
structure Config where
  env : Env
deriving DecidableEq

/-- Go struct `BackupMetadata`. -/
structure BackupMetadata where
  provider : String
  createdAt : String
  version : String
deriving DecidableEq

/-- Go struct `BackupConfig`: the backup document with provenance. -/
structure BackupConfig where
  metadata : BackupMetadata
  env : Env
deriving DecidableEq

/-- `json.Unmarshal` into `Config`.  A JSON object need not contain
`env` at all; unknown fields are ignored.  (The subsequent nil-map fix
in `loadConfig` is the `getD` here: an absent field is the empty map.) -/
def decodeConfig : JValue → Option Config
  | JValue.null => some ⟨[]⟩
  | JValue.obj fields =>
    match decodeField "env" decodeEnvField fields none with
    | some oe => some ⟨oe.getD []⟩
    | none => none
  | _ => none

/-- `json.Unmarshal` into `BackupMetadata`. -/
def decodeMetadata : JValue → Option BackupMetadata
  | JValue.null => some ⟨"", "", ""⟩
  | JValue.obj fields =>
    match decodeField "provider" decodeStr fields none with
    | none => none
    | some op =>
      match decodeField "created_at" decodeStr fields none with
      | none => none
      | some oc =>
        match decodeField "version" decodeStr fields none with
        | none => none
        | some ov => some ⟨op.getD "", oc.getD "", ov.getD ""⟩
  | _ => none

/-- `json.Unmarshal` into `BackupConfig`.  Crucially, a document with no
`_metadata` field at all still unmarshals successfully, leaving the
zero-valued metadata (provider is the empty string). -/
def decodeBackupConfig : JValue → Option BackupConfig
  | JValue.null => some ⟨⟨"", "", ""⟩, []⟩
  | JValue.obj fields =>
    match decodeField "_metadata" decodeMetadata fields none with
    | none => none
    | some om =>
      match decodeField "env" decodeEnvField fields none with
      | none => none
      | some oe => some ⟨om.getD ⟨"", "", ""⟩, oe.getD []⟩
  | _ => none

/-- `json.Marshal` of a `Config` (field order as declared). -/
def encodeConfig (c : Config) : JValue := JValue.obj [("env", JValue.obj (strFields c.env))]

/-- `json.Marshal` of a `BackupMetadata`. -/
def encodeMetadata (m : BackupMetadata) : JValue :=
  JValue.obj [("provider", JValue.str m.provider),
    ("created_at", JValue.str m.createdAt),
    ("version", JValue.str m.version)]

/-- `json.Marshal` of a `BackupConfig`. -/
def encodeBackup (b : BackupConfig) : JValue :=
  JValue.obj [("_metadata", encodeMetadata b.metadata), ("env", JValue.obj (strFields b.env))]

/-- Tool version constant (`Version`). -/
def Version : String := "2.1.0"

/-- Provider name constant (`ProviderAnthropic`). -/
def ProviderAnthropic : String := "anthropic"

/-- Provider name constant (`ProviderZAI`). -/
def ProviderZAI : String := "zai"

/-- Provider name constant (`ProviderCustom`). -/
def ProviderCustom : String := "custom"

/-- Provider name constant (`ProviderUnknown`). -/
def ProviderUnknown : String := "unknown"

/-- The Z.AI specific environment keys (`zaiEnvKeys`), excluding the
shared `ANTHROPIC_AUTH_TOKEN`. -/
def zaiEnvKeys : List String :=
  ["ANTHROPIC_BASE_URL",
   "API_TIMEOUT_MS",
   "ANTHROPIC_DEFAULT_OPUS_MODEL",
   "ANTHROPIC_DEFAULT_SONNET_MODEL",
   "ANTHROPIC_DEFAULT_HAIKU_MODEL"]

/-- Does `pat` occur as a contiguous run inside `l`? -/
def hasRun (pat : List Char) : List Char → Bool
  | [] => pat.isEmpty
  | c :: rest => pat.isPrefixOf (c :: rest) || hasRun pat rest

/-- Go `strings.Contains s pat`. -/
def strContains (s pat : String) : Bool := hasRun pat.data s.data

/-- `detectProvider`: classify a configuration from its base URL. -/
def detectProvider (config : Config) : String :=
  if config.env.isEmpty then ProviderUnknown
  else
    let baseURL := envGetD config.env "ANTHROPIC_BASE_URL"
    if strContains baseURL "z.ai" then ProviderZAI
    else if baseURL = "" then ProviderAnthropic
    else ProviderCustom

/-- Token type constant (`TokenTypeZAI`), the API-key shape. -/
def TokenTypeZAI : String := "zai_api_key"

/-- Token type constant (`TokenTypeAnthropic`), the web-session shape. -/
def TokenTypeAnthropic : String := "anthropic_web"

/-- Token type constant (`TokenTypeUnknown`). -/
def TokenTypeUnknown : String := "unknown"

/-- Go `strings.HasPrefix s p`. -/
def strStarts (s p : String) : Bool := p.data.isPrefixOf s.data

/-- Go `len s` (byte length; identical to character count on the ASCII
data this program handles). -/
def strLen (s : String) : Nat := s.data.length

/-- First `n` characters of a string (Go slice `s[:n]`). -/
def strTake (s : String) (n : Nat) : String := ⟨s.data.take n⟩

/-- All but the first `n` characters of a string (Go slice `s[n:]`). -/
def strDrop (s : String) (n : Nat) : String := ⟨s.data.drop n⟩

/-- Go `strings.Count token "."`: number of dots in the token. -/
def countDots (token : String) : Nat := token.data.count '.'

/-- `detectTokenType`: heuristic shape classification of a credential. -/
def detectTokenType (token : String) : String :=
  if token = "" then TokenTypeUnknown
  else if strStarts token "sk-" || strStarts token "zai-" then TokenTypeZAI
  else if 2 ≤ countDots token ∧ 100 < strLen token then TokenTypeAnthropic
  else if 200 < strLen token then TokenTypeAnthropic
  else if strLen token < 100 then TokenTypeZAI
  else TokenTypeUnknown

/-- `maskToken`: display form of a credential. -/
def maskToken (token : String) : String :=
  if strLen token ≤ 8 then "********"
  else strTake token 4 ++ "..." ++ strDrop token (strLen token - 4)

/-- Delete the five Z.AI specific keys from an environment (the loop of
`delete` calls in `switchToAnthropic`). -/
def stripZaiKeys : Env → Env
  | [] => []
  | p :: rest => if p.1 ∈ zaiEnvKeys then stripZaiKeys rest else p :: stripZaiKeys rest

/-- One on-disk file slot as the tool can observe it. -/
inductive FileSlot where
  | absent
  | unreadable
  | junk
  | json (v : JValue)

/-- The file system visible to the tool: the settings file and the
backup file. -/
structure FS where
  settings : FileSlot
  backup : FileSlot

/-- Errors surfaced by the embedded operations. -/
inductive Err where
  | ioError
  | parseError
  | saveFailed
  | backupFailed
  | tokenEmpty
deriving DecidableEq

/-- External inputs and failure injection for one invocation: the
resolved credential (empty means the user supplied none), the clock
reading, and whether each of the two atomic-write paths fails.  A
failed atomic write leaves the target file untouched. -/
structure World where
  settingsWriteFails : Bool
  backupWriteFails : Bool
  token : String
  now : String

/-- `loadConfig`: a missing file is an empty configuration; unreadable
bytes are an I/O error; a document that does not unmarshal as `Config`
is a parse error.  (The nil-map normalisation of the code is built into
`decodeConfig`.) -/
def loadConfig : FileSlot → Except Err Config
  | FileSlot.absent => Except.ok ⟨[]⟩
  | FileSlot.unreadable => Except.error Err.ioError
  | FileSlot.junk => Except.error Err.parseError
  | FileSlot.json v =>
    match decodeConfig v with
    | some c => Except.ok c
    | none => Except.error Err.parseError

/-- `hasValidAnthropicBackup`: result triple mirrors the Go signature
`(bool, *BackupConfig, error)`.  Strict decode first; if that fails,
the legacy fallback decodes as a bare `Config` and stamps provider
Anthropic; a strict decode whose provider is not Anthropic yields
`(false, record, nil)`. -/
def hasValidAnthropicBackup : FileSlot → Bool × Option BackupConfig × Option Err
  | FileSlot.absent => (false, none, none)
  | FileSlot.unreadable => (false, none, some Err.ioError)
  | FileSlot.junk => (false, none, some Err.parseError)
  | FileSlot.json v =>
    match decodeBackupConfig v with
    | some backup =>
      if backup.metadata.provider ≠ ProviderAnthropic then (false, some backup, none)
      else (true, some backup, none)
    | none =>
      match decodeConfig v with
      | some oldConfig => (true, some ⟨⟨ProviderAnthropic, "", ""⟩, oldConfig.env⟩, none)
      | none => (false, none, some Err.parseError)

/-- The credential stored in the backup slot, as
`hasValidAnthropicBackup` exposes it (what switching back would see). -/
def backupCredential (slot : FileSlot) : Option String :=
  match hasValidAnthropicBackup slot with
  | (_, some backup, _) => envLookup backup.env "ANTHROPIC_AUTH_TOKEN"
  | _ => none

/-- `createBackupWithMetadata`: stamp provider, clock and tool version
and atomically write the backup slot (overwriting unconditionally). -/
def createBackupWithMetadata (w : World) (fs : FS) (env : Env) (provider : String) :
    FS × Except Err Unit :=
  if w.backupWriteFails then (fs, Except.error Err.backupFailed)
  else ({ fs with backup := FileSlot.json (encodeBackup ⟨⟨provider, w.now, Version⟩, env⟩) },
    Except.ok Unit.unit)

/-- Reported outcome of `switchToAnthropic`. -/
inductive AOutcome where
  | alreadyAnthropic
  | emptyCreated
  | restored
deriving DecidableEq

/-- Reported outcome of `switchToZAI`. -/
inductive ZOutcome where
  | alreadyZAI
  | switched
deriving DecidableEq

/-- The part of `switchToAnthropic` after the already-on-Anthropic
check: restore from a valid backup (stripping the Z.AI keys), or write
a fresh empty configuration when no valid backup exists. -/
def switchToAnthropicCore (w : World) (fs : FS) : FS × Except Err AOutcome :=
  match hasValidAnthropicBackup fs.backup with
  | (true, some backup, _) =>
    if w.settingsWriteFails then (fs, Except.error Err.saveFailed)
    else ({ fs with settings := FileSlot.json (encodeConfig ⟨stripZaiKeys backup.env⟩) },
      Except.ok AOutcome.restored)
  | _ =>
    if w.settingsWriteFails then (fs, Except.error Err.saveFailed)
    else ({ fs with settings := FileSlot.json (encodeConfig ⟨[]⟩) },
      Except.ok AOutcome.emptyCreated)

/-- `switchToAnthropic`.  Note the code's guard is
`err == nil && isAnthropicConfig(...)`: a failing load is only warned
about and the restore path proceeds. -/
def switchToAnthropic (w : World) (fs : FS) : FS × Except Err AOutcome :=
  match loadConfig fs.settings with
  | Except.ok currentConfig =>
    if detectProvider currentConfig = ProviderAnthropic then
      (fs, Except.ok AOutcome.alreadyAnthropic)
    else switchToAnthropicCore w fs
  | Except.error _ => switchToAnthropicCore w fs

/-- The brand-new environment `switchToZAI` writes: exactly the five
fixed Z.AI keys plus the credential. -/
def zaiNewEnv (token : String) : Env :=
  [("ANTHROPIC_AUTH_TOKEN", token),
   ("ANTHROPIC_BASE_URL", "https://api.z.ai/api/anthropic"),
   ("API_TIMEOUT_MS", "3000000"),
   ("ANTHROPIC_DEFAULT_OPUS_MODEL", "GLM-4.6"),
   ("ANTHROPIC_DEFAULT_SONNET_MODEL", "GLM-4.6"),
   ("ANTHROPIC_DEFAULT_HAIKU_MODEL", "GLM-4.5-Air")]

/-- `switchToZAI`: load and classify; no-op when already Z.AI; apply the
backup-only-if-none-exists policy when leaving a non-empty Anthropic
configuration (aborting the whole transition on backup failure, before
the credential is ever requested); obtain the credential (an empty
resolved credential is fatal); build the fresh Z.AI environment and
atomically write the settings. -/
def switchToZAI (w : World) (fs : FS) : FS × Except Err ZOutcome :=
  match loadConfig fs.settings with
  | Except.error e => (fs, Except.error e)
  | Except.ok config =>
    if detectProvider config = ProviderZAI then (fs, Except.ok ZOutcome.alreadyZAI)
    else
      let backupStep : FS × Except Err Unit :=
        if detectProvider config = ProviderAnthropic ∧ 0 < config.env.length then
          match hasValidAnthropicBackup fs.backup with
          | (true, some _, _) => (fs, Except.ok Unit.unit)
          | _ => createBackupWithMetadata w fs config.env ProviderAnthropic
        else (fs, Except.ok Unit.unit)
      match backupStep with
      | (fs1, Except.error e) => (fs1, Except.error e)
      | (fs1, Except.ok _) =>
        if w.token = "" then (fs1, Except.error Err.tokenEmpty)
        else if w.settingsWriteFails then (fs1, Except.error Err.saveFailed)
        else ({ fs1 with settings := FileSlot.json (encodeConfig ⟨zaiNewEnv w.token⟩) },
          Except.ok ZOutcome.switched)

/-- `showStatus`: read-only; fatal only when the settings load fails. -/
def showStatus (fs : FS) : FS × Except Err Unit :=
  match loadConfig fs.settings with
  | Except.error e => (fs, Except.error e)
  | Except.ok _ => (fs, Except.ok Unit.unit)

/-! ### Helper lemmas about environments and decoding -/

theorem envLookup_erase_self (e : Env) (k : String) : envLookup (envErase e k) k = none := by
  induction e with
  | nil => rfl
  | cons p rest ih =>
    cases p with
    | mk k1 v1 =>
      simp only [envErase]
      by_cases h : k1 = k
      · rw [if_pos h]; exact ih
      · rw [if_neg h]; simp only [envLookup, if_neg h]; exact ih

theorem envLookup_erase_ne (e : Env) (k1 k : String) (h : k1 ≠ k) :
    envLookup (envErase e k1) k = envLookup e k := by
  induction e with
  | nil => rfl
  | cons p rest ih =>
    cases p with
    | mk ka va =>
      simp only [envErase, envLookup]
      by_cases ha : ka = k1
      · rw [if_pos ha]
        have : ¬ ka = k := fun hk => h (ha ▸ hk ▸ rfl)
        rw [if_neg this]
        exact ih
      · rw [if_neg ha]
        simp only [envLookup]
        by_cases hk : ka = k
        · rw [if_pos hk, if_pos hk]
        · rw [if_neg hk, if_neg hk]; exact ih

theorem envLookup_append_of_none (xs ys : Env) (k : String) (h : envLookup xs k = none) :
    envLookup (xs ++ ys) k = envLookup ys k := by
  induction xs with
  | nil => rfl
  | cons p rest ih =>
    cases p with
    | mk ka va =>
      simp only [envLookup] at h
      by_cases hk : ka = k
      · rw [if_pos hk] at h; exact absurd h (by simp)
      · rw [if_neg hk] at h
        simp only [List.cons_append, envLookup, if_neg hk]
        exact ih h

theorem envLookup_append_of_some (xs ys : Env) (k v : String) (h : envLookup xs k = some v) :
    envLookup (xs ++ ys) k = some v := by
  induction xs with
  | nil => exact absurd h (by simp [envLookup])
  | cons p rest ih =>
    cases p with
    | mk ka va =>
      simp only [envLookup] at h
      simp only [List.cons_append, envLookup]
      by_cases hk : ka = k
      · rw [if_pos hk] at h ⊢; exact h
      · rw [if_neg hk] at h ⊢; exact ih h

theorem envLookup_envInsert_ne (a : Env) (k1 v1 k : String) (h : k1 ≠ k) :
    envLookup (envInsert a k1 v1) k = envLookup a k := by
  unfold envInsert
  cases hx : envLookup (envErase a k1) k with
  | none =>
    rw [envLookup_append_of_none _ _ _ hx]
    simp only [envLookup, if_neg h]
    rw [← envLookup_erase_ne a k1 k h, hx]
  | some v =>
    rw [envLookup_append_of_some _ _ _ _ hx]
    rw [← envLookup_erase_ne a k1 k h, hx]

theorem envLookup_refold_of_not_mem (l : Env) :
    ∀ (acc : Env) (k : String), k ∉ envKeys l → envLookup (refold acc l) k = envLookup acc k := by
  induction l with
  | nil => intro acc k _; rfl
  | cons p rest ih =>
    intro acc k hk
    cases p with
    | mk k1 v1 =>
      simp only [envKeys, List.map_cons, List.mem_cons] at hk
      push_neg at hk
      have h1 : k1 ≠ k := fun he => hk.1 (he ▸ rfl)
      have h2 : k ∉ envKeys rest := by
        simp only [envKeys]; exact hk.2
      show envLookup (refold (envInsert acc k1 v1) rest) k = envLookup acc k
      rw [ih (envInsert acc k1 v1) k h2]
      exact envLookup_envInsert_ne acc k1 v1 k h1

theorem not_mem_keys_strip (e : Env) (k : String) (hk : k ∈ zaiEnvKeys) :
    k ∉ envKeys (stripZaiKeys e) := by
  induction e with
  | nil => simp [stripZaiKeys, envKeys]
  | cons p rest ih =>
    simp only [stripZaiKeys]
    by_cases h : p.1 ∈ zaiEnvKeys
    · rw [if_pos h]; exact ih
    · rw [if_neg h]
      simp only [envKeys, List.map_cons, List.mem_cons]
      push_neg
      exact ⟨fun he => h (he ▸ hk), ih⟩

theorem decodeStrFields_strFields (l : Env) :
    ∀ acc : Env, decodeStrFields (strFields l) acc = some (refold acc l) := by
  induction l with
  | nil => intro acc; rfl
  | cons p rest ih =>
    intro acc
    cases p with
    | mk k v =>
      show decodeStrFields ((k, JValue.str v) :: strFields rest) acc = _
      show decodeStrFields (strFields rest) (envInsert acc k v) = _
      exact ih (envInsert acc k v)

theorem loadConfig_encode (e : Env) :
    loadConfig (FileSlot.json (encodeConfig ⟨e⟩)) = Except.ok ⟨refold [] e⟩ := by
  simp [loadConfig, encodeConfig, decodeConfig, decodeField, decodeEnvField,
    decodeStrFields_strFields]

theorem detectProvider_of_base_none (c : Config)
    (h : envLookup c.env "ANTHROPIC_BASE_URL" = none) :
    detectProvider c = ProviderAnthropic ∨ detectProvider c = ProviderUnknown := by
  unfold detectProvider
  by_cases he : c.env.isEmpty
  · rw [if_pos he]; right; rfl
  · rw [if_neg he]
    have hb : envGetD c.env "ANTHROPIC_BASE_URL" = "" := by simp [envGetD, h]
    simp only [hb]
    left
    rfl

theorem detectProvider_anthropic_pos (c : Config)
    (h : detectProvider c = ProviderAnthropic) : 0 < c.env.length := by
  cases c with
  | mk e =>
    cases e with
    | nil => exact absurd h (by decide)
    | cons p rest => simp

/-! ### Helper lemmas about the switch operations -/

theorem refold_zaiNewEnv (t : String) : refold [] (zaiNewEnv t) = zaiNewEnv t := rfl

theorem detectProvider_zaiNewEnv (t : String) :
    detectProvider ⟨zaiNewEnv t⟩ = ProviderZAI := rfl

theorem switchToAnthropicCore_backup (w : World) (fs : FS) :
    (switchToAnthropicCore w fs).1.backup = fs.backup := by
  unfold switchToAnthropicCore
  rcases hb : hasValidAnthropicBackup fs.backup with ⟨b, ob, oe⟩
  cases b <;> cases ob <;> dsimp only <;> split <;> rfl

theorem switchToAnthropic_backup (w : World) (fs : FS) :
    (switchToAnthropic w fs).1.backup = fs.backup := by
  unfold switchToAnthropic
  cases hl : loadConfig fs.settings with
  | ok c =>
    dsimp only
    by_cases hA : detectProvider c = ProviderAnthropic
    · rw [if_pos hA]
    · rw [if_neg hA]; exact switchToAnthropicCore_backup w fs
  | error e => exact switchToAnthropicCore_backup w fs

theorem switchToAnthropic_noop (w : World) (fs : FS) (c : Config)
    (hload : loadConfig fs.settings = Except.ok c)
    (hA : detectProvider c = ProviderAnthropic) :
    switchToAnthropic w fs = (fs, Except.ok AOutcome.alreadyAnthropic) := by
  unfold switchToAnthropic
  rw [hload]
  simp [hA]

theorem switchToAnthropic_eq_core (w : World) (fs : FS)
    (h : ∀ c, loadConfig fs.settings = Except.ok c → detectProvider c ≠ ProviderAnthropic) :
    switchToAnthropic w fs = switchToAnthropicCore w fs := by
  unfold switchToAnthropic
  cases hl : loadConfig fs.settings with
  | ok c => simp [h c hl]
  | error e => rfl

theorem switchToAnthropicCore_restore (w : World) (fs : FS) (bk : BackupConfig)
    (oe : Option Err)
    (hb : hasValidAnthropicBackup fs.backup = (true, some bk, oe))
    (hsw : w.settingsWriteFails = false) :
    switchToAnthropicCore w fs =
      ({ fs with settings := FileSlot.json (encodeConfig ⟨stripZaiKeys bk.env⟩) },
        Except.ok AOutcome.restored) := by
  unfold switchToAnthropicCore
  rw [hb, hsw]
  simp

theorem switchToAnthropicCore_empty (w : World) (fs : FS) (b : Bool)
    (ob : Option BackupConfig) (oe : Option Err)
    (hb : hasValidAnthropicBackup fs.backup = (b, ob, oe))
    (hno : b = false ∨ ob = none)
    (hsw : w.settingsWriteFails = false) :
    switchToAnthropicCore w fs =
      ({ fs with settings := FileSlot.json (encodeConfig ⟨([] : Env)⟩) },
        Except.ok AOutcome.emptyCreated) := by
  unfold switchToAnthropicCore
  rw [hb, hsw]
  rcases hno with h0 | h0
  · subst h0
    cases ob <;> simp
  · subst h0
    cases b <;> simp

theorem envLookup_refold_strip_base (e : Env) :
    envLookup (refold [] (stripZaiKeys e)) "ANTHROPIC_BASE_URL" = none := by
  rw [envLookup_refold_of_not_mem _ _ _ (not_mem_keys_strip _ _ (by simp [zaiEnvKeys]))]
  rfl

theorem detectProvider_refold_strip_ne_zai (e : Env) :
    detectProvider ⟨refold [] (stripZaiKeys e)⟩ ≠ ProviderZAI := by
  rcases detectProvider_of_base_none ⟨refold [] (stripZaiKeys e)⟩
      (envLookup_refold_strip_base e) with h | h <;> rw [h] <;> decide

theorem switchToZAI_after_restore (w : World) (bslot : FileSlot) (bk : BackupConfig)
    (oe : Option Err)
    (hb : hasValidAnthropicBackup bslot = (true, some bk, oe))
    (ht : ¬ w.token = "") (hsw : w.settingsWriteFails = false) :
    switchToZAI w ⟨FileSlot.json (encodeConfig ⟨stripZaiKeys bk.env⟩), bslot⟩ =
      (⟨FileSlot.json (encodeConfig ⟨zaiNewEnv w.token⟩), bslot⟩,
        Except.ok ZOutcome.switched) := by
  unfold switchToZAI
  have hload := loadConfig_encode (stripZaiKeys bk.env)
  dsimp only
  rw [hload]
  dsimp only
  rw [if_neg (detectProvider_refold_strip_ne_zai bk.env)]
  by_cases hc : detectProvider ⟨refold [] (stripZaiKeys bk.env)⟩ = ProviderAnthropic ∧
      0 < (refold [] (stripZaiKeys bk.env)).length
  · rw [if_pos hc, hb]
    dsimp only
    rw [if_neg ht, hsw]
    simp
  · rw [if_neg hc]
    dsimp only
    rw [if_neg ht, hsw]
    simp

theorem switchToAnthropic_on_zai (w : World) (bslot : FileSlot) (bk : BackupConfig)
    (oe : Option Err) (t : String)
    (hb : hasValidAnthropicBackup bslot = (true, some bk, oe))
    (hsw : w.settingsWriteFails = false) :
    switchToAnthropic w ⟨FileSlot.json (encodeConfig ⟨zaiNewEnv t⟩), bslot⟩ =
      (⟨FileSlot.json (encodeConfig ⟨stripZaiKeys bk.env⟩), bslot⟩,
        Except.ok AOutcome.restored) := by
  have h1 : loadConfig (FileSlot.json (encodeConfig ⟨zaiNewEnv t⟩)) =
      Except.ok ⟨zaiNewEnv t⟩ := loadConfig_encode (zaiNewEnv t)
  rw [switchToAnthropic_eq_core]
  · exact switchToAnthropicCore_restore w _ bk oe hb hsw
  · intro c hc
    rw [h1] at hc
    cases hc
    exact fun h => absurd (detectProvider_zaiNewEnv t ▸ h) (by decide)

/-! ### Claim theorems -/

/-- A fixed all-writes-succeed world used by concrete runs below. -/
def okWorld : World := ⟨false, false, "sk-test1234", "2025-01-01T00:00:00Z"⟩

/-- C1: claimed — a backup file holding a bare env-only JSON document
(legacy format, no metadata field) is reported by
`hasValidAnthropicBackup` as a valid Anthropic restore target.  The
code violates this: Go `json.Unmarshal` into `BackupConfig` succeeds on
such a document (a missing metadata field merely leaves the zero
value, whose provider is the empty string), so the strict decode never
fails, the documented legacy-fallback branch is not reached, and the
provider check rejects the record.  This theorem evaluates the
embedded function at the failing input: the result is
`(false, record)` with provider `""`, not `(true, record)` with
provider Anthropic. -/
theorem c1_legacy_backup_rejected :
    hasValidAnthropicBackup (FileSlot.json (JValue.obj
      [("env", JValue.obj [("ANTHROPIC_AUTH_TOKEN", JValue.str "legacy-web-token")])])) =
      (false, some ⟨⟨"", "", ""⟩, [("ANTHROPIC_AUTH_TOKEN", "legacy-web-token")]⟩, none) :=
  rfl

/-- C4: `detectProvider` is a pure total function returning exactly one
of the four provider names, with: empty mapping to Unknown; a base URL
containing the marker substring to ZAI; an empty base URL (non-empty
mapping) to Anthropic; a non-empty base URL without the marker to
Custom. -/
theorem c4_detectProvider_classification (c : Config) :
    (detectProvider c = ProviderUnknown ∨ detectProvider c = ProviderZAI ∨
      detectProvider c = ProviderAnthropic ∨ detectProvider c = ProviderCustom) ∧
    (c.env = [] → detectProvider c = ProviderUnknown) ∧
    (c.env ≠ [] → strContains (envGetD c.env "ANTHROPIC_BASE_URL") "z.ai" = true →
      detectProvider c = ProviderZAI) ∧
    (c.env ≠ [] → strContains (envGetD c.env "ANTHROPIC_BASE_URL") "z.ai" = false →
      envGetD c.env "ANTHROPIC_BASE_URL" = "" → detectProvider c = ProviderAnthropic) ∧
    (c.env ≠ [] → strContains (envGetD c.env "ANTHROPIC_BASE_URL") "z.ai" = false →
      envGetD c.env "ANTHROPIC_BASE_URL" ≠ "" → detectProvider c = ProviderCustom) := by
  rcases c with ⟨e⟩
  cases e with
  | nil =>
    refine ⟨Or.inl rfl, fun _ => rfl, ?_, ?_, ?_⟩ <;> intro h <;> exact (h rfl).elim
  | cons p rest =>
    by_cases hz : strContains (envGetD (p :: rest) "ANTHROPIC_BASE_URL") "z.ai" = true
    · have hd : detectProvider ⟨p :: rest⟩ = ProviderZAI := by
        show (if strContains (envGetD (p :: rest) "ANTHROPIC_BASE_URL") "z.ai" = true
          then ProviderZAI
          else if envGetD (p :: rest) "ANTHROPIC_BASE_URL" = "" then ProviderAnthropic
          else ProviderCustom) = ProviderZAI
        rw [if_pos hz]
      exact ⟨Or.inr (Or.inl hd), fun h => absurd h (by simp), fun _ _ => hd,
        fun _ hf => absurd (hz.symm.trans hf) (by decide),
        fun _ hf => absurd (hz.symm.trans hf) (by decide)⟩
    · rw [Bool.not_eq_true] at hz
      by_cases hb0 : envGetD (p :: rest) "ANTHROPIC_BASE_URL" = ""
      · have hd : detectProvider ⟨p :: rest⟩ = ProviderAnthropic := by
          show (if strContains (envGetD (p :: rest) "ANTHROPIC_BASE_URL") "z.ai" = true
            then ProviderZAI
            else if envGetD (p :: rest) "ANTHROPIC_BASE_URL" = "" then ProviderAnthropic
            else ProviderCustom) = ProviderAnthropic
          rw [hz, if_neg (by decide), if_pos hb0]
        exact ⟨Or.inr (Or.inr (Or.inl hd)), fun h => absurd h (by simp),
          fun _ hf => absurd (hz.symm.trans hf) (by decide),
          fun _ _ _ => hd, fun _ _ hne => absurd hb0 hne⟩
      · have hd : detectProvider ⟨p :: rest⟩ = ProviderCustom := by
          show (if strContains (envGetD (p :: rest) "ANTHROPIC_BASE_URL") "z.ai" = true
            then ProviderZAI
            else if envGetD (p :: rest) "ANTHROPIC_BASE_URL" = "" then ProviderAnthropic
            else ProviderCustom) = ProviderCustom
          rw [hz, if_neg (by decide), if_neg hb0]
        exact ⟨Or.inr (Or.inr (Or.inr hd)), fun h => absurd h (by simp),
          fun _ hf => absurd (hz.symm.trans hf) (by decide),
          fun _ _ h0 => absurd h0 hb0, fun _ _ _ => hd⟩

/-- C4 witness: the theorem instantiated at concrete configurations for
the marker clause. -/
theorem c4_witness :
    detectProvider ⟨[("ANTHROPIC_BASE_URL", "https://api.z.ai/api/anthropic")]⟩ =
      ProviderZAI :=
  (c4_detectProvider_classification
    ⟨[("ANTHROPIC_BASE_URL", "https://api.z.ai/api/anthropic")]⟩).2.2.1
    (by simp) (by decide)

/-- C7: `detectTokenType` classifies credentials exactly as specified,
taking the cases in order: a recognised prefix gives the API-key type;
otherwise at least two dots with length over 100, or length over 200,
gives the web-session type; otherwise a non-empty token shorter than
100 gives the API-key type; everything else (including the empty
string) is Unknown. -/
theorem c7_detectTokenType_classification (t : String) :
    ((strStarts t "sk-" = true ∨ strStarts t "zai-" = true) →
      detectTokenType t = TokenTypeZAI) ∧
    (¬(strStarts t "sk-" = true ∨ strStarts t "zai-" = true) →
      ((2 ≤ countDots t ∧ 100 < strLen t) ∨ 200 < strLen t) →
      detectTokenType t = TokenTypeAnthropic) ∧
    (t ≠ "" → ¬(strStarts t "sk-" = true ∨ strStarts t "zai-" = true) →
      ¬((2 ≤ countDots t ∧ 100 < strLen t) ∨ 200 < strLen t) →
      strLen t < 100 → detectTokenType t = TokenTypeZAI) ∧
    ((t = "" ∨ (¬(strStarts t "sk-" = true ∨ strStarts t "zai-" = true) ∧
      ¬((2 ≤ countDots t ∧ 100 < strLen t) ∨ 200 < strLen t) ∧ ¬(strLen t < 100))) →
      detectTokenType t = TokenTypeUnknown) := by
  refine ⟨?_, ?_, ?_, ?_⟩
  · intro hp
    have hne : ¬ t = "" := by
      intro h0
      subst h0
      rcases hp with h | h <;> exact absurd h (by decide)
    have hb : (strStarts t "sk-" || strStarts t "zai-") = true := by
      rcases hp with h | h <;> simp [h]
    unfold detectTokenType
    rw [if_neg hne, if_pos hb]
  · intro hnp hw
    have hne : ¬ t = "" := by
      intro h0
      subst h0
      rcases hw with ⟨_, h⟩ | h <;> simp [strLen] at h
    have hb : ¬ ((strStarts t "sk-" || strStarts t "zai-") = true) := by
      simpa [Bool.or_eq_true] using hnp
    unfold detectTokenType
    rw [if_neg hne, if_neg hb]
    rcases hw with h2 | h3
    · rw [if_pos h2]
    · by_cases h2 : 2 ≤ countDots t ∧ 100 < strLen t
      · rw [if_pos h2]
      · rw [if_neg h2, if_pos h3]
  · intro hne hnp hnw hlt
    have hb : ¬ ((strStarts t "sk-" || strStarts t "zai-") = true) := by
      simpa [Bool.or_eq_true] using hnp
    unfold detectTokenType
    rw [if_neg hne, if_neg hb, if_neg (fun h => hnw (Or.inl h)),
      if_neg (fun h => hnw (Or.inr h)), if_pos hlt]
  · intro hu
    rcases hu with h0 | ⟨hnp, hnw, hnl⟩
    · subst h0; rfl
    · have hne : ¬ t = "" := by
        intro h0
        subst h0
        exact hnl (by simp [strLen])
      have hb : ¬ ((strStarts t "sk-" || strStarts t "zai-") = true) := by
        simpa [Bool.or_eq_true] using hnp
      unfold detectTokenType
      rw [if_neg hne, if_neg hb, if_neg (fun h => hnw (Or.inl h)),
        if_neg (fun h => hnw (Or.inr h)), if_neg hnl]

/-- C7 witness: the theorem instantiated at a prefixed key, a dotted
long web-session token, and the empty string. -/
theorem c7_witness :
    detectTokenType "sk-test1234" = TokenTypeZAI ∧
    detectTokenType "" = TokenTypeUnknown :=
  ⟨(c7_detectTokenType_classification "sk-test1234").1 (Or.inl (by decide)),
   (c7_detectTokenType_classification "").2.2.2 (Or.inl rfl)⟩

/-- C9: `maskToken` returns the fixed eight-character placeholder for
credentials of length at most 8, and otherwise exactly the first four
characters, the separator, and the last four characters. -/
theorem c9_maskToken_shape (t : String) :
    (strLen t ≤ 8 → maskToken t = "********") ∧
    (8 < strLen t →
      maskToken t = strTake t 4 ++ "..." ++ strDrop t (strLen t - 4)) := by
  unfold maskToken
  constructor
  · intro h; rw [if_pos h]
  · intro h; rw [if_neg (by omega)]

/-- C9 witness: the theorem instantiated at a short and a long
credential (the long one reproduces the masked form from the spec's
scenario). -/
theorem c9_witness :
    maskToken "short" = "********" ∧ maskToken "sk-test1234" = "sk-t...1234" :=
  ⟨(c9_maskToken_shape "short").1 (by decide),
   ((c9_maskToken_shape "sk-test1234").2 (by decide)).trans (by decide)⟩

/-- C3 counterexample: with an unparseable settings file and no backup,
switch-to-Anthropic does not fail — it reports a degraded success and
overwrites the settings file with an empty configuration, because its
guard `err == nil && isAnthropicConfig(...)` merely skips the no-op
check when the load fails. -/
theorem c3_counterexample :
    (switchToAnthropic okWorld ⟨FileSlot.junk, FileSlot.absent⟩).2 =
      Except.ok AOutcome.emptyCreated ∧
    (switchToAnthropic okWorld ⟨FileSlot.junk, FileSlot.absent⟩).1.settings =
      FileSlot.json (encodeConfig ⟨([] : Env)⟩) ∧
    (switchToAnthropic okWorld ⟨FileSlot.junk, FileSlot.absent⟩).1 ≠
      (⟨FileSlot.junk, FileSlot.absent⟩ : FS) :=
  ⟨rfl, rfl, fun h => FileSlot.noConfusion (congrArg FS.settings h)⟩

/-- C3 (amended): a settings file that exists but is malformed is a
fatal parse error, leaving the file system untouched, for
switch-to-ZAI and show-status; switch-to-Anthropic instead tolerates
the failed load and proceeds with its restore flow. -/
theorem c3_amended_parse_error_fatal (w : World) (fs : FS)
    (h : loadConfig fs.settings = Except.error Err.parseError) :
    switchToZAI w fs = (fs, Except.error Err.parseError) ∧
    showStatus fs = (fs, Except.error Err.parseError) ∧
    switchToAnthropic w fs = switchToAnthropicCore w fs := by
  refine ⟨?_, ?_, ?_⟩
  · unfold switchToZAI; rw [h]
  · unfold showStatus; rw [h]
  · unfold switchToAnthropic; rw [h]

/-- C3 witness: the amended theorem applied to a concrete malformed
settings file. -/
theorem c3_witness :
    switchToZAI okWorld ⟨FileSlot.junk, FileSlot.absent⟩ =
      (⟨FileSlot.junk, FileSlot.absent⟩, Except.error Err.parseError) ∧
    showStatus ⟨FileSlot.junk, FileSlot.absent⟩ =
      (⟨FileSlot.junk, FileSlot.absent⟩, Except.error Err.parseError) ∧
    switchToAnthropic okWorld ⟨FileSlot.junk, FileSlot.absent⟩ =
      switchToAnthropicCore okWorld ⟨FileSlot.junk, FileSlot.absent⟩ :=
  c3_amended_parse_error_fatal okWorld ⟨FileSlot.junk, FileSlot.absent⟩ rfl

/-- C5: during switch-to-ZAI from an Anthropic-classified non-empty
configuration with no valid existing backup, a failing backup write
aborts the whole transition: the result is the backup-failure error
and the file system is returned unchanged.  The statement holds for
every credential value in the world, including the empty one — the
abort happens before the credential would be requested. -/
theorem c5_backup_failure_aborts (w : World) (fs : FS) (c : Config)
    (ob : Option BackupConfig) (oe : Option Err)
    (hload : loadConfig fs.settings = Except.ok c)
    (hdet : detectProvider c = ProviderAnthropic)
    (hb : hasValidAnthropicBackup fs.backup = (false, ob, oe))
    (hbw : w.backupWriteFails = true) :
    switchToZAI w fs = (fs, Except.error Err.backupFailed) := by
  unfold switchToZAI
  rw [hload]
  dsimp only
  rw [if_neg (by rw [hdet]; decide)]
  rw [if_pos ⟨hdet, detectProvider_anthropic_pos c hdet⟩]
  rw [hb]
  dsimp only
  unfold createBackupWithMetadata
  rw [hbw]
  simp

/-- C5 witness: concrete Anthropic settings, an absent backup slot, and
a failing backup write. -/
theorem c5_witness :
    switchToZAI ⟨false, true, "", ""⟩
        ⟨FileSlot.json (JValue.obj [("env",
          JValue.obj [("ANTHROPIC_AUTH_TOKEN", JValue.str "web-login-token")])]),
         FileSlot.absent⟩ =
      (⟨FileSlot.json (JValue.obj [("env",
          JValue.obj [("ANTHROPIC_AUTH_TOKEN", JValue.str "web-login-token")])]),
         FileSlot.absent⟩, Except.error Err.backupFailed) :=
  c5_backup_failure_aborts ⟨false, true, "", ""⟩ _
    ⟨[("ANTHROPIC_AUTH_TOKEN", "web-login-token")]⟩ none none rfl rfl rfl rfl

/-- C10: during switch-to-ZAI from an Anthropic-classified non-empty
configuration, when the backup check does not report a valid Anthropic
backup (its boolean is false: absent slot, unreadable file, document
unparseable under both schemas, or stored provider not Anthropic — all
of which yield a `false` first component), the operation does not
abort: it overwrites the backup slot with a freshly stamped Anthropic
backup of the current configuration and completes the switch. -/
theorem c10_stale_backup_overwritten (w : World) (fs : FS) (c : Config)
    (ob : Option BackupConfig) (oe : Option Err)
    (hload : loadConfig fs.settings = Except.ok c)
    (hdet : detectProvider c = ProviderAnthropic)
    (hb : hasValidAnthropicBackup fs.backup = (false, ob, oe))
    (hbw : w.backupWriteFails = false)
    (hsw : w.settingsWriteFails = false)
    (ht : ¬ w.token = "") :
    switchToZAI w fs =
      (⟨FileSlot.json (encodeConfig ⟨zaiNewEnv w.token⟩),
        FileSlot.json (encodeBackup ⟨⟨ProviderAnthropic, w.now, Version⟩, c.env⟩)⟩,
       Except.ok ZOutcome.switched) := by
  cases fs with
  | mk s bslot =>
    unfold switchToZAI
    dsimp only at hload hb ⊢
    rw [hload]
    dsimp only
    rw [if_neg (by rw [hdet]; decide)]
    rw [if_pos ⟨hdet, detectProvider_anthropic_pos c hdet⟩]
    rw [hb]
    dsimp only
    unfold createBackupWithMetadata
    rw [hbw, if_neg (by decide : ¬ (false = true))]
    dsimp only
    rw [if_neg ht, hsw, if_neg (by decide : ¬ (false = true))]

/-- C10 witness: concrete Anthropic settings with a backup slot holding
a non-Anthropic (Z.AI-stamped) record; the slot is overwritten and the
switch completes. -/
theorem c10_witness :
    switchToZAI okWorld
        ⟨FileSlot.json (JValue.obj [("env",
          JValue.obj [("ANTHROPIC_AUTH_TOKEN", JValue.str "web-login-token")])]),
         FileSlot.json (JValue.obj [("_metadata",
          JValue.obj [("provider", JValue.str "zai")]), ("env", JValue.obj [])])⟩ =
      (⟨FileSlot.json (encodeConfig ⟨zaiNewEnv "sk-test1234"⟩),
        FileSlot.json (encodeBackup ⟨⟨ProviderAnthropic, "2025-01-01T00:00:00Z", Version⟩,
          [("ANTHROPIC_AUTH_TOKEN", "web-login-token")]⟩)⟩,
       Except.ok ZOutcome.switched) :=
  c10_stale_backup_overwritten okWorld _
    ⟨[("ANTHROPIC_AUTH_TOKEN", "web-login-token")]⟩
    (some ⟨⟨"zai", "", ""⟩, []⟩) none rfl rfl rfl rfl rfl (by decide)

/-- C6: whenever switch-to-ZAI completes the actual switch with the
world's credential, the written settings decode to exactly the fixed
five Z.AI keys plus the credential key — the literal six-entry
environment — so no key of the pre-existing configuration is carried
over. -/
theorem c6_fresh_zai_settings (w : World) (fs fsOut : FS)
    (h : switchToZAI w fs = (fsOut, Except.ok ZOutcome.switched)) :
    fsOut.settings = FileSlot.json (encodeConfig ⟨zaiNewEnv w.token⟩) ∧
    loadConfig fsOut.settings = Except.ok ⟨zaiNewEnv w.token⟩ ∧
    envKeys (zaiNewEnv w.token) = "ANTHROPIC_AUTH_TOKEN" :: zaiEnvKeys ∧
    envLookup (zaiNewEnv w.token) "ANTHROPIC_AUTH_TOKEN" = some w.token := by
  have hset : fsOut.settings = FileSlot.json (encodeConfig ⟨zaiNewEnv w.token⟩) := by
    unfold switchToZAI at h
    cases hl : loadConfig fs.settings with
    | error e => rw [hl] at h; simp at h
    | ok c =>
      rw [hl] at h
      dsimp only at h
      by_cases hz : detectProvider c = ProviderZAI
      · rw [if_pos hz] at h; simp at h
      · rw [if_neg hz] at h
        have hcont : ∀ fs1 : FS,
            (match (fs1, Except.ok Unit.unit) with
              | (fs1, Except.error e) => (fs1, Except.error e)
              | (fs1, Except.ok _) =>
                if w.token = "" then (fs1, Except.error Err.tokenEmpty)
                else if w.settingsWriteFails = true then (fs1, Except.error Err.saveFailed)
                else ({ fs1 with settings :=
                    FileSlot.json (encodeConfig ⟨zaiNewEnv w.token⟩) },
                  Except.ok ZOutcome.switched)) = (fsOut, Except.ok ZOutcome.switched) →
            fsOut.settings = FileSlot.json (encodeConfig ⟨zaiNewEnv w.token⟩) := by
          intro fs1 hh
          dsimp only at hh
          by_cases h0 : w.token = ""
          · rw [if_pos h0] at hh; simp at hh
          · rw [if_neg h0] at hh
            by_cases hs : w.settingsWriteFails = true
            · rw [if_pos hs] at hh; simp at hh
            · rw [if_neg hs] at hh
              have := congrArg Prod.fst hh
              dsimp only at this
              rw [← this]
        by_cases hc : detectProvider c = ProviderAnthropic ∧ 0 < c.env.length
        · rw [if_pos hc] at h
          rcases hbk : hasValidAnthropicBackup fs.backup with ⟨b, ob, oe⟩
          rw [hbk] at h
          cases b with
          | true =>
            cases ob with
            | some bk => exact hcont fs h
            | none =>
              dsimp only at h
              unfold createBackupWithMetadata at h
              by_cases hw : w.backupWriteFails = true
              · rw [if_pos hw] at h; simp at h
              · rw [if_neg hw] at h; exact hcont _ h
          | false =>
            dsimp only at h
            unfold createBackupWithMetadata at h
            by_cases hw : w.backupWriteFails = true
            · rw [if_pos hw] at h; simp at h
            · rw [if_neg hw] at h; exact hcont _ h
        · rw [if_neg hc] at h
          exact hcont fs h
  refine ⟨hset, ?_, rfl, rfl⟩
  rw [hset, loadConfig_encode, refold_zaiNewEnv]

/-- C6 witness: a concrete successful switch from an empty configuration
directory. -/
theorem c6_witness :
    (⟨FileSlot.json (encodeConfig ⟨zaiNewEnv "sk-test1234"⟩), FileSlot.absent⟩ : FS).settings =
      FileSlot.json (encodeConfig ⟨zaiNewEnv "sk-test1234"⟩) ∧
    loadConfig (⟨FileSlot.json (encodeConfig ⟨zaiNewEnv "sk-test1234"⟩),
      FileSlot.absent⟩ : FS).settings = Except.ok ⟨zaiNewEnv "sk-test1234"⟩ ∧
    envKeys (zaiNewEnv "sk-test1234") = "ANTHROPIC_AUTH_TOKEN" :: zaiEnvKeys ∧
    envLookup (zaiNewEnv "sk-test1234") "ANTHROPIC_AUTH_TOKEN" = some "sk-test1234" :=
  c6_fresh_zai_settings okWorld ⟨FileSlot.absent, FileSlot.absent⟩
    ⟨FileSlot.json (encodeConfig ⟨zaiNewEnv "sk-test1234"⟩), FileSlot.absent⟩ rfl

/-- C2: starting from Z.AI-classified settings with a valid Anthropic
backup holding credential `v`, the run switch-to-Anthropic,
switch-to-ZAI, switch-to-Anthropic succeeds at every step and never
touches the backup slot, so the backed-up credential equals the
original after every step. -/
theorem c2_backup_preserved (w : World) (fs : FS) (c0 : Config) (bk : BackupConfig)
    (oe : Option Err) (v : String)
    (hsw : w.settingsWriteFails = false)
    (ht : ¬ w.token = "")
    (hload : loadConfig fs.settings = Except.ok c0)
    (hz : detectProvider c0 = ProviderZAI)
    (hb : hasValidAnthropicBackup fs.backup = (true, some bk, oe))
    (hv : backupCredential fs.backup = some v) :
    (switchToAnthropic w fs).2 = Except.ok AOutcome.restored ∧
    (switchToAnthropic w fs).1.backup = fs.backup ∧
    backupCredential (switchToAnthropic w fs).1.backup = some v ∧
    (switchToZAI w (switchToAnthropic w fs).1).2 = Except.ok ZOutcome.switched ∧
    (switchToZAI w (switchToAnthropic w fs).1).1.backup = fs.backup ∧
    backupCredential (switchToZAI w (switchToAnthropic w fs).1).1.backup = some v ∧
    (switchToAnthropic w (switchToZAI w (switchToAnthropic w fs).1).1).2 =
      Except.ok AOutcome.restored ∧
    (switchToAnthropic w (switchToZAI w (switchToAnthropic w fs).1).1).1.backup =
      fs.backup ∧
    backupCredential
      (switchToAnthropic w (switchToZAI w (switchToAnthropic w fs).1).1).1.backup =
      some v := by
  cases fs with
  | mk s bslot =>
    dsimp only at hload hb hv ⊢
    have h1 : switchToAnthropic w ⟨s, bslot⟩ =
        (⟨FileSlot.json (encodeConfig ⟨stripZaiKeys bk.env⟩), bslot⟩,
          Except.ok AOutcome.restored) := by
      rw [switchToAnthropic_eq_core]
      · exact switchToAnthropicCore_restore w ⟨s, bslot⟩ bk oe hb hsw
      · intro c' hc'
        dsimp only at hc'
        rw [hload] at hc'
        cases hc'
        intro hPA
        exact absurd (hz.symm.trans hPA) (by decide)
    have h2 := switchToZAI_after_restore w bslot bk oe hb ht hsw
    have h3 := switchToAnthropic_on_zai w bslot bk oe w.token hb hsw
    rw [h1]
    dsimp only
    rw [h2]
    dsimp only
    rw [h3]
    exact ⟨rfl, rfl, hv, rfl, rfl, hv, rfl, rfl, hv⟩

/-- Z.AI-classified settings document used by the C2 witness. -/
def c2SettingsDoc : JValue :=
  JValue.obj [("env", JValue.obj
    [("ANTHROPIC_BASE_URL", JValue.str "https://api.z.ai/api/anthropic"),
     ("ANTHROPIC_AUTH_TOKEN", JValue.str "sk-old")])]

/-- Valid Anthropic backup document used by the C2 witness. -/
def c2BackupDoc : JValue :=
  JValue.obj [("_metadata", JValue.obj
    [("provider", JValue.str "anthropic"),
     ("created_at", JValue.str "2024-11-21T00:00:00Z"),
     ("version", JValue.str "2.1.0")]),
    ("env", JValue.obj [("ANTHROPIC_AUTH_TOKEN", JValue.str "web.session.credential")])]

/-- C2 witness: the theorem applied to a concrete Z.AI state with a
concrete valid Anthropic backup. -/
theorem c2_witness :
    (switchToAnthropic okWorld ⟨FileSlot.json c2SettingsDoc, FileSlot.json c2BackupDoc⟩).2 =
      Except.ok AOutcome.restored ∧
    (switchToAnthropic okWorld
      ⟨FileSlot.json c2SettingsDoc, FileSlot.json c2BackupDoc⟩).1.backup =
      (⟨FileSlot.json c2SettingsDoc, FileSlot.json c2BackupDoc⟩ : FS).backup ∧
    backupCredential (switchToAnthropic okWorld
      ⟨FileSlot.json c2SettingsDoc, FileSlot.json c2BackupDoc⟩).1.backup =
      some "web.session.credential" ∧
    (switchToZAI okWorld (switchToAnthropic okWorld
      ⟨FileSlot.json c2SettingsDoc, FileSlot.json c2BackupDoc⟩).1).2 =
      Except.ok ZOutcome.switched ∧
    (switchToZAI okWorld (switchToAnthropic okWorld
      ⟨FileSlot.json c2SettingsDoc, FileSlot.json c2BackupDoc⟩).1).1.backup =
      (⟨FileSlot.json c2SettingsDoc, FileSlot.json c2BackupDoc⟩ : FS).backup ∧
    backupCredential (switchToZAI okWorld (switchToAnthropic okWorld
      ⟨FileSlot.json c2SettingsDoc, FileSlot.json c2BackupDoc⟩).1).1.backup =
      some "web.session.credential" ∧
    (switchToAnthropic okWorld (switchToZAI okWorld (switchToAnthropic okWorld
      ⟨FileSlot.json c2SettingsDoc, FileSlot.json c2BackupDoc⟩).1).1).2 =
      Except.ok AOutcome.restored ∧
    (switchToAnthropic okWorld (switchToZAI okWorld (switchToAnthropic okWorld
      ⟨FileSlot.json c2SettingsDoc, FileSlot.json c2BackupDoc⟩).1).1).1.backup =
      (⟨FileSlot.json c2SettingsDoc, FileSlot.json c2BackupDoc⟩ : FS).backup ∧
    backupCredential (switchToAnthropic okWorld (switchToZAI okWorld (switchToAnthropic
      okWorld ⟨FileSlot.json c2SettingsDoc, FileSlot.json c2BackupDoc⟩).1).1).1.backup =
      some "web.session.credential" :=
  c2_backup_preserved okWorld ⟨FileSlot.json c2SettingsDoc, FileSlot.json c2BackupDoc⟩
    ⟨[("ANTHROPIC_BASE_URL", "https://api.z.ai/api/anthropic"),
      ("ANTHROPIC_AUTH_TOKEN", "sk-old")]⟩
    ⟨⟨"anthropic", "2024-11-21T00:00:00Z", "2.1.0"⟩,
      [("ANTHROPIC_AUTH_TOKEN", "web.session.credential")]⟩
    none "web.session.credential" rfl (by decide) rfl rfl rfl rfl

/-- C8 counterexample: from an empty configuration directory, the first
switch-to-Anthropic writes an empty configuration (degraded success);
the second invocation repeats the degraded path — it is reported as
"created empty configuration" again, not as the already-on-Anthropic
no-op the claim asserts. -/
theorem c8_counterexample :
    (switchToAnthropic okWorld
      ((switchToAnthropic okWorld ⟨FileSlot.absent, FileSlot.absent⟩).1)).2 =
      Except.ok AOutcome.emptyCreated ∧
    (switchToAnthropic okWorld
      ((switchToAnthropic okWorld ⟨FileSlot.absent, FileSlot.absent⟩).1)).2 ≠
      Except.ok AOutcome.alreadyAnthropic :=
  ⟨rfl, fun h => AOutcome.noConfusion (Except.ok.inj h)⟩

/-- C8 (amended): invoking switch-to-Anthropic twice in a row with no
intervening external changes (and succeeding writes) leaves the file
system after the second call identical to after the first call, and
the second call is either the reported already-on-Anthropic no-op or a
repetition of the first call's reported outcome with no further
on-disk change; the first call always succeeds. -/
theorem c8_amended_idempotent (w : World) (fs : FS)
    (hsw : w.settingsWriteFails = false) :
    (switchToAnthropic w (switchToAnthropic w fs).1).1 = (switchToAnthropic w fs).1 ∧
    ((switchToAnthropic w (switchToAnthropic w fs).1).2 =
        Except.ok AOutcome.alreadyAnthropic ∨
      (switchToAnthropic w (switchToAnthropic w fs).1).2 = (switchToAnthropic w fs).2) ∧
    (∃ o, (switchToAnthropic w fs).2 = Except.ok o) := by
  cases fs with
  | mk s bslot =>
    by_cases hA : ∃ c, loadConfig s = Except.ok c ∧ detectProvider c = ProviderAnthropic
    · rcases hA with ⟨c, hl, hAc⟩
      have h1 : switchToAnthropic w ⟨s, bslot⟩ =
          (⟨s, bslot⟩, Except.ok AOutcome.alreadyAnthropic) :=
        switchToAnthropic_noop w ⟨s, bslot⟩ c hl hAc
      rw [h1]
      dsimp only
      rw [h1]
      exact ⟨rfl, Or.inl rfl, ⟨_, rfl⟩⟩
    · push_neg at hA
      have hcore : switchToAnthropic w ⟨s, bslot⟩ = switchToAnthropicCore w ⟨s, bslot⟩ :=
        switchToAnthropic_eq_core w ⟨s, bslot⟩ hA
      rcases hbk : hasValidAnthropicBackup bslot with ⟨b, ob, oe⟩
      cases b with
      | true =>
        cases ob with
        | some bk =>
          have hres : switchToAnthropicCore w ⟨s, bslot⟩ =
              (⟨FileSlot.json (encodeConfig ⟨stripZaiKeys bk.env⟩), bslot⟩,
                Except.ok AOutcome.restored) :=
            switchToAnthropicCore_restore w ⟨s, bslot⟩ bk oe hbk hsw
          have hload1 : loadConfig (FileSlot.json (encodeConfig ⟨stripZaiKeys bk.env⟩)) =
              Except.ok ⟨refold [] (stripZaiKeys bk.env)⟩ := loadConfig_encode _
          by_cases hA2 : detectProvider ⟨refold [] (stripZaiKeys bk.env)⟩ =
              ProviderAnthropic
          · have h2 : switchToAnthropic w
                ⟨FileSlot.json (encodeConfig ⟨stripZaiKeys bk.env⟩), bslot⟩ =
                (⟨FileSlot.json (encodeConfig ⟨stripZaiKeys bk.env⟩), bslot⟩,
                  Except.ok AOutcome.alreadyAnthropic) :=
              switchToAnthropic_noop w _ _ hload1 hA2
            rw [hcore, hres]
            dsimp only
            rw [h2]
            exact ⟨rfl, Or.inl rfl, ⟨_, rfl⟩⟩
          · have h2core : switchToAnthropic w
                ⟨FileSlot.json (encodeConfig ⟨stripZaiKeys bk.env⟩), bslot⟩ =
                switchToAnthropicCore w
                  ⟨FileSlot.json (encodeConfig ⟨stripZaiKeys bk.env⟩), bslot⟩ := by
              apply switchToAnthropic_eq_core
              intro c' hc'
              dsimp only at hc'
              rw [hload1] at hc'
              cases hc'
              exact hA2
            have h2res : switchToAnthropicCore w
                ⟨FileSlot.json (encodeConfig ⟨stripZaiKeys bk.env⟩), bslot⟩ =
                (⟨FileSlot.json (encodeConfig ⟨stripZaiKeys bk.env⟩), bslot⟩,
                  Except.ok AOutcome.restored) :=
              switchToAnthropicCore_restore w _ bk oe hbk hsw
            rw [hcore, hres]
            dsimp only
            rw [h2core, h2res]
            exact ⟨rfl, Or.inr rfl, ⟨_, rfl⟩⟩
        | none =>
          have hres : switchToAnthropicCore w ⟨s, bslot⟩ =
              (⟨FileSlot.json (encodeConfig ⟨([] : Env)⟩), bslot⟩,
                Except.ok AOutcome.emptyCreated) :=
            switchToAnthropicCore_empty w ⟨s, bslot⟩ true none oe hbk (Or.inr rfl) hsw
          have h2core : switchToAnthropic w
              ⟨FileSlot.json (encodeConfig ⟨([] : Env)⟩), bslot⟩ =
              switchToAnthropicCore w
                ⟨FileSlot.json (encodeConfig ⟨([] : Env)⟩), bslot⟩ := by
            apply switchToAnthropic_eq_core
            intro c' hc'
            dsimp only at hc'
            rw [loadConfig_encode] at hc'
            cases hc'
            decide
          have h2res : switchToAnthropicCore w
              ⟨FileSlot.json (encodeConfig ⟨([] : Env)⟩), bslot⟩ =
              (⟨FileSlot.json (encodeConfig ⟨([] : Env)⟩), bslot⟩,
                Except.ok AOutcome.emptyCreated) :=
            switchToAnthropicCore_empty w _ true none oe hbk (Or.inr rfl) hsw
          rw [hcore, hres]
          dsimp only
          rw [h2core, h2res]
          exact ⟨rfl, Or.inr rfl, ⟨_, rfl⟩⟩
      | false =>
        have hres : switchToAnthropicCore w ⟨s, bslot⟩ =
            (⟨FileSlot.json (encodeConfig ⟨([] : Env)⟩), bslot⟩,
              Except.ok AOutcome.emptyCreated) :=
          switchToAnthropicCore_empty w ⟨s, bslot⟩ false ob oe hbk (Or.inl rfl) hsw
        have h2core : switchToAnthropic w
            ⟨FileSlot.json (encodeConfig ⟨([] : Env)⟩), bslot⟩ =
            switchToAnthropicCore w
              ⟨FileSlot.json (encodeConfig ⟨([] : Env)⟩), bslot⟩ := by
          apply switchToAnthropic_eq_core
          intro c' hc'
          dsimp only at hc'
          rw [loadConfig_encode] at hc'
          cases hc'
          decide
        have h2res : switchToAnthropicCore w
            ⟨FileSlot.json (encodeConfig ⟨([] : Env)⟩), bslot⟩ =
            (⟨FileSlot.json (encodeConfig ⟨([] : Env)⟩), bslot⟩,
              Except.ok AOutcome.emptyCreated) :=
          switchToAnthropicCore_empty w _ false ob oe hbk (Or.inl rfl) hsw
        rw [hcore, hres]
        dsimp only
        rw [h2core, h2res]
        exact ⟨rfl, Or.inr rfl, ⟨_, rfl⟩⟩

/-- C8 witness: the amended theorem applied to the empty configuration
directory. -/
theorem c8_witness :
    (switchToAnthropic okWorld
        (switchToAnthropic okWorld ⟨FileSlot.absent, FileSlot.absent⟩).1).1 =
      (switchToAnthropic okWorld ⟨FileSlot.absent, FileSlot.absent⟩).1 ∧
    ((switchToAnthropic okWorld
        (switchToAnthropic okWorld ⟨FileSlot.absent, FileSlot.absent⟩).1).2 =
        Except.ok AOutcome.alreadyAnthropic ∨
      (switchToAnthropic okWorld
        (switchToAnthropic okWorld ⟨FileSlot.absent, FileSlot.absent⟩).1).2 =
        (switchToAnthropic okWorld ⟨FileSlot.absent, FileSlot.absent⟩).2) ∧
    (∃ o, (switchToAnthropic okWorld ⟨FileSlot.absent, FileSlot.absent⟩).2 =
      Except.ok o) :=
  c8_amended_idempotent okWorld ⟨FileSlot.absent, FileSlot.absent⟩ rfl

end ClaudeSwitch
